import Mathlib

/-!
Verification of the processor-labeling core of `processor_ci_utils`.

The definitions below are a shallow embedding of the Python sources:

* `src/labeler/src/test_cycle.py` — namespace `TestCycle`: the RISC-V JAL
  encoder, the synthesized program layout and instruction map of
  `instr_mem_driver`, the program-counter observer and interval classifier of
  `test_pc_behavior`, and the bounded latency measurement
  `measure_pipeline_depth`.
* `src/labeler/src/cycle.py` — namespace `Cycle`: the simple bus responder
  `instr_mem_driver`.
* `src/cocotb_labeler.py` (same region as `src/labeler/src/cocotb_labeler.py`)
  — namespace `CocotbLabeler`: the read-modify-write merge of the labels store
  performed by `processor_test`.

Unresolved electrical states (cocotb values whose `is_resolvable` is false)
are modeled as `Option.none`; fallible Python code (raising) is modeled with
`Except`.
-/

namespace TestCycle

/-- `NOP = 0x00000013` (addi x0, x0, 0), from test_cycle.py line 9. -/
def NOP : Nat := 0x00000013

/-- `INSTR_A = 0x00500093` (addi x1, x0, 5), test_cycle.py line 10. -/
def INSTR_A : Nat := 0x00500093

/-- `INSTR_B = 0x00600093` (addi x1, x0, 6), test_cycle.py line 11. -/
def INSTR_B : Nat := 0x00600093

/-- `ADDI_X1_X0_5 = INSTR_A`, test_cycle.py line 12. -/
def ADDI_X1_X0_5 : Nat := INSTR_A

/-- `encode_jal(imm, rd)` from test_cycle.py lines 14-37.  Raising
`ValueError` is modeled as `Except.error`; Python `imm & ((1 <<< 21) - 1)` on a
(possibly negative) int is `imm % 2^21` (nonnegative remainder). -/
def encode_jal (imm : Int) (rd : Nat) : Except String Nat :=
  if -(2 ^ 20) ≤ imm ∧ imm < 2 ^ 20 then
    let imm_u : Nat := (imm % (2 ^ 21 : Int)).toNat
    let imm20 : Nat := (imm_u >>> 20) &&& 0x1
    let imm10_1 : Nat := (imm_u >>> 1) &&& 0x3FF
    let imm11 : Nat := (imm_u >>> 11) &&& 0x1
    let imm19_12 : Nat := (imm_u >>> 12) &&& 0xFF
    let opc : Nat := 0x6f
    let instr : Nat :=
      (imm20 <<< 31) ||| (imm10_1 <<< 21) ||| (imm11 <<< 20) |||
        (imm19_12 <<< 12) ||| ((rd &&& 0x1F) <<< 7) ||| opc
    Except.ok (instr &&& 0xFFFFFFFF)
  else
    Except.error s!"JAL immediate {imm} out of range for 21-bit signed J-format"

/-- The `jal_back` computation of `instr_mem_driver`, test_cycle.py
lines 105-110: `try: jal_back = encode_jal(imm, rd=0) except ValueError:
log error; jal_back = NOP`.  The except-handler makes this total. -/
def jalBackOf (imm : Int) : Nat :=
  match encode_jal imm 0 with
  | Except.ok w => w
  | Except.error _ => NOP

/-- The program layout derived by `instr_mem_driver` on the first fetch,
test_cycle.py lines 100-110. -/
structure Layout where
  start_addr : Nat
  loop_start : Nat
  branch_addr : Nat
  finish_addr : Nat
  jal_back : Nat
deriving DecidableEq

/-- Layout initialization from the first requested address,
test_cycle.py lines 100-110. -/
def mkLayout (start_addr : Nat) : Layout :=
  let loop_start := start_addr + 8
  let branch_addr := start_addr + 32
  let finish_addr := start_addr + 36
  let imm : Int := (loop_start : Int) - (branch_addr : Int)
  { start_addr := start_addr, loop_start := loop_start,
    branch_addr := branch_addr, finish_addr := finish_addr,
    jal_back := jalBackOf imm }

/-- The instruction map of `instr_mem_driver`, test_cycle.py lines 116-132:
which word is served for a requested address. -/
def instrAt (L : Layout) (loops_done required_loops : Nat) (addr : Nat) : Nat :=
  if addr = L.start_addr + 0 then INSTR_A
  else if addr = L.start_addr + 4 then INSTR_B
  else if addr = L.start_addr + 8 ∨ addr = L.start_addr + 12 ∨
          addr = L.start_addr + 16 ∨ addr = L.start_addr + 20 ∨
          addr = L.start_addr + 24 ∨ addr = L.start_addr + 28 then NOP
  else if addr = L.branch_addr then
    (if loops_done < required_loops then L.jal_back else NOP)
  else if addr = L.finish_addr then NOP
  else NOP

/-- State of the PC observation loop of `test_pc_behavior`,
test_cycle.py lines 230-252.  Python `None` is `Option.none`. -/
structure ObsState where
  prev_pc : Option Nat
  change_cycles : List Nat
  last_change : Option Nat
  first_pc_seen : Option Nat
deriving DecidableEq

/-- Initial observer state, test_cycle.py lines 230-233. -/
def obsInit : ObsState :=
  { prev_pc := none, change_cycles := [], last_change := none,
    first_pc_seen := none }

/-- One iteration of the observation loop, test_cycle.py lines 237-252.
`pc? = none` is an unresolved `core_addr` (the `continue` at line 239).
When the change branch runs, `last_change` is always set, so the `getD 0`
default is never consulted. -/
def obsStep (s : ObsState) (cycle : Nat) (pc? : Option Nat) : ObsState :=
  match pc? with
  | none => s
  | some pc =>
    match s.first_pc_seen with
    | none =>
      { prev_pc := some pc, change_cycles := s.change_cycles,
        last_change := some cycle, first_pc_seen := some pc }
    | some _ =>
      if some pc ≠ s.prev_pc then
        { prev_pc := some pc,
          change_cycles := s.change_cycles ++ [cycle - s.last_change.getD 0],
          last_change := some cycle, first_pc_seen := s.first_pc_seen }
      else s

/-- Folding the observation loop over a sampled PC trace. -/
def observeGo (s : ObsState) (cycle : Nat) : List (Option Nat) → ObsState
  | [] => s
  | pc :: rest => observeGo (obsStep s cycle pc) (cycle + 1) rest

/-- The inter-change interval list (`change_cycles`) produced by the
200-cycle observation window, test_cycle.py line 236. -/
def observePC (trace : List (Option Nat)) : List Nat :=
  (observeGo obsInit 0 (trace.take 200)).change_cycles

/-- The labels record written for one processor: JSON
`{"multicycle": _, "pipeline": false-or-depth, "singlecycle": _}`
(test_cycle.py lines 273-285).  `pipeline = some d` stands for the
JSON object `\x7b"depth": d\x7d`, `none` for JSON `false`. -/
structure LabelRec where
  multicycle : Bool
  pipeline : Option Int
  singlecycle : Bool
deriving DecidableEq

/-- The record written when the pipelined-candidate branch is taken but the
latency is `None` or unexpected, test_cycle.py lines 273 and 282. -/
def undetRec : LabelRec := { multicycle := false, pipeline := none, singlecycle := false }

/-- The record for a single-cycle verdict, test_cycle.py line 276. -/
def singleRec : LabelRec := { multicycle := false, pipeline := none, singlecycle := true }

/-- The record for a pipelined verdict of the given depth, test_cycle.py line 279. -/
def pipeRec (depth : Int) : LabelRec :=
  { multicycle := false, pipeline := some depth, singlecycle := false }

/-- The record for the multicycle verdict, test_cycle.py line 285. -/
def multiRec : LabelRec := { multicycle := true, pipeline := none, singlecycle := false }

/-- `filtered = [d for d in change_cycles if d > 0]` followed by
`if filtered and all(d == 1 for d in filtered)` — the branch condition of the
classifier, test_cycle.py lines 254 and 268. -/
def pipelinedCandidate (change_cycles : List Nat) : Bool :=
  let filtered := change_cycles.filter (fun d => 0 < d)
  !filtered.isEmpty && filtered.all (fun d => d == 1)

/-- Branches of the `latency` dispatch, test_cycle.py lines 271-282: the
`elif latency == 1`, `elif latency > 1`, and the defensive `else`
("Unexpected latency value"). -/
inductive LatencyCase where
  | single : LatencyCase
  | pipelined : Int → LatencyCase
  | unexpected : Int → LatencyCase
deriving DecidableEq

/-- Which branch of the dispatch a measured latency takes,
test_cycle.py lines 274-282. -/
def latencyCaseOf (l : Int) : LatencyCase :=
  if l = 1 then LatencyCase.single
  else if l > 1 then LatencyCase.pipelined l
  else LatencyCase.unexpected l

/-- The record written by the pipelined-candidate branch as a function of the
measurement result, test_cycle.py lines 270-282. -/
def classifyLatency : Option Int → LabelRec
  | none => undetRec
  | some l =>
    match latencyCaseOf l with
    | LatencyCase.single => singleRec
    | LatencyCase.pipelined d => pipeRec d
    | LatencyCase.unexpected _ => undetRec

/-- The whole classification of test_cycle.py lines 268-285 as a function of
the recorded interval list and of the latency the measurement would return on
the candidate branch. -/
def classifyTrace (change_cycles : List Nat) (lat : Option Int) : LabelRec :=
  if pipelinedCandidate change_cycles then classifyLatency lat else multiRec

/-- Python dict assignment `d[k] = v` on an association list. -/
def assocSet {α : Type} : List (String × α) → String → α → List (String × α)
  | [], k, v => [(k, v)]
  | (k', v') :: rest, k, v =>
    if k' = k then (k, v) :: rest else (k', v') :: assocSet rest k v

/-- `existing_data[processor_name] = record` followed by the dump,
test_cycle.py lines 268-291: the store that gets persisted. -/
def runVerdict (store : List (String × LabelRec)) (name : String)
    (change_cycles : List Nat) (lat : Option Int) : List (String × LabelRec) :=
  assocSet store name (classifyTrace change_cycles lat)

/-- One cycle of samples seen by `measure_pipeline_depth`,
test_cycle.py lines 160-190: the word on `core_data_in` (`none` when
unresolved), `core_stb`, and `regfile[1]` (`none` when unresolved). -/
structure MSample where
  fetched : Option Nat
  stb : Bool
  reg : Option Nat
deriving DecidableEq

/-- The baseline sampling of test_cycle.py lines 151-154:
`int(regfile[1].value) if regfile[1].value.is_resolvable else 0` — an
unresolved read is coerced to the concrete value 0. -/
def baselineOf (reg : Option Nat) : Nat := reg.getD 0

/-- The issue-cycle update, test_cycle.py lines 175-177:
`if issue_cycle is None and fetched == ADDI_X1_X0_5 and core_stb`. -/
def issueUpd (issue : Option Nat) (cycle : Nat) (fetched : Option Nat)
    (stb : Bool) : Option Nat :=
  match issue with
  | some ic => some ic
  | none => if fetched = some ADDI_X1_X0_5 ∧ stb = true then some cycle else none

/-- The `+1` convention of test_cycle.py line 197:
`latency = write_cycle - issue_cycle + 1`, over Python (unbounded) ints. -/
def latencyOf (issue_cycle write_cycle : Nat) : Int :=
  (write_cycle : Int) - (issue_cycle : Int) + 1

/-- The measurement loop of test_cycle.py lines 160-190, returning the
`(issue_cycle, write_cycle)` pair at the `break`, or `none` if the trace is
exhausted first.  An unresolved register sample (`reg = none`) is the
except/unresolved path of lines 181-190: the loop just continues. -/
def measureGo (baseline : Nat) : Nat → Option Nat → List MSample → Option (Nat × Nat)
  | _, _, [] => none
  | cycle, issue, s :: rest =>
    let issue' := issueUpd issue cycle s.fetched s.stb
    match issue' with
    | none => measureGo baseline (cycle + 1) none rest
    | some ic =>
      match s.reg with
      | none => measureGo baseline (cycle + 1) (some ic) rest
      | some v =>
        if v ≠ baseline then some (ic, cycle)
        else measureGo baseline (cycle + 1) (some ic) rest

/-- The property claim C2 asserts of the driver: the jump word computed for
`branch_addr` is always the result of a successful `encode_jal` (an
out-of-range immediate would instead abort the run, so no immediate gets a
substituted word). -/
def neverSubstitutes : Prop :=
  ∀ imm : Int, ∃ w, encode_jal imm 0 = Except.ok w ∧ jalBackOf imm = w

/-- `max_cycles = 400`, test_cycle.py line 158. -/
def max_cycles : Nat := 400

/-- `measure_pipeline_depth` of test_cycle.py lines 142-199 as a function of
the raw baseline read (`none` when unresolved) and the per-cycle samples:
returns the latency, or `none` when issue or write is never observed within
the 400-cycle window (lines 192-194). -/
def measure_pipeline_depth (baselineRaw : Option Nat) (trace : List MSample) :
    Option Int :=
  match measureGo (baselineOf baselineRaw) 0 none (trace.take max_cycles) with
  | none => none
  | some p => some (latencyOf p.1 p.2)

end TestCycle

namespace Cycle

/-- The fixed example program of cycle.py lines 9-13. -/
def prog : List (Nat × Nat) :=
  [(0x00000080, 0x00500093), (0x00000084, 0x00000013), (0x00000088, 0x00000013)]

/-- `prog.get(addr, 0x00000013)`, cycle.py line 27. -/
def progGet (addr : Nat) : Nat := (prog.lookup addr).getD 0x00000013

/-- Bus request signals sampled by `instr_mem_driver` on a clock edge,
cycle.py line 21.  `addr = none` is an unresolved `core_addr`. -/
structure BusIn where
  cyc : Bool
  stb : Bool
  we : Bool
  addr : Option Nat
deriving DecidableEq

/-- The two signals driven by `instr_mem_driver`, cycle.py lines 17-18. -/
structure DrvOut where
  core_data_in : Nat
  core_ack : Bool
deriving DecidableEq

/-- One iteration of `instr_mem_driver`, cycle.py lines 20-31.  Driven
signals persist between edges, so the state is the current output pair; the
`continue` on an unresolved address (line 26) leaves both outputs as they
were. -/
def drvStep (out : DrvOut) (i : BusIn) : DrvOut :=
  if i.cyc = true ∧ i.stb = true ∧ i.we = false then
    match i.addr with
    | none => out
    | some a => { core_data_in := progGet a, core_ack := true }
  else
    { core_data_in := out.core_data_in, core_ack := false }

/-- Initial outputs, cycle.py lines 17-18. -/
def drvInit : DrvOut := { core_data_in := 0, core_ack := false }

/-- The driver run over a finite prefix of edges. -/
def drvRun (inputs : List BusIn) : DrvOut := inputs.foldl drvStep drvInit

/-- The property claim C4 asserts of the responder: on every edge whose fetch
is asserted with an unresolved address, the acknowledge output is low. -/
def ackLowOnUnresolved : Prop :=
  ∀ (pre : List BusIn) (i : BusIn),
    i.cyc = true → i.stb = true → i.we = false → i.addr = none →
    (drvRun (pre ++ [i])).core_ack = false

end Cycle

namespace CocotbLabeler

/-- One processor's entry in the labels store, as read back by
`processor_test` (cocotb_labeler.py): the verdict fields plus the optional
`"bits"` key it adds. -/
structure Entry where
  multicycle : Bool
  pipeline : Option Int
  singlecycle : Bool
  bits : Option Nat
deriving DecidableEq

/-- Reading the prior store, cocotb_labeler.py lines 98-108: a missing file
is first created holding `\x7b\x7d`, and a corrupt or unreadable store falls
to the except-handler — both give the empty dict.  `prior = none` stands for
the missing/corrupt case. -/
def readPrior (prior : Option (List (String × Entry))) : List (String × Entry) :=
  match prior with
  | some store => store
  | none => []

/-- `existing_data[processor_name]["bits"] = bits`, cocotb_labeler.py
line 110: the outer subscript raises `KeyError` when `processor_name` is not
a key of the store. -/
def setBits (store : List (String × Entry)) (name : String) (bits : Nat) :
    Except String (List (String × Entry)) :=
  match store.lookup name with
  | some e =>
    Except.ok (TestCycle.assocSet store name
      { multicycle := e.multicycle, pipeline := e.pipeline,
        singlecycle := e.singlecycle, bits := some bits })
  | none => Except.error "KeyError"

/-- The read-modify-write merge of `processor_test`, cocotb_labeler.py
lines 98-118, as a function of the prior store contents. -/
def processor_test_persist (prior : Option (List (String × Entry)))
    (name : String) (bits : Nat) : Except String (List (String × Entry)) :=
  setBits (readPrior prior) name bits

end CocotbLabeler

namespace TestCycle

/-- Unfolding lemma for one iteration of the measurement loop. -/
theorem measureGo_cons (b cycle : Nat) (issue : Option Nat) (s : MSample)
    (rest : List MSample) :
    measureGo b cycle issue (s :: rest) =
      match issueUpd issue cycle s.fetched s.stb with
      | none => measureGo b (cycle + 1) none rest
      | some ic =>
        match s.reg with
        | none => measureGo b (cycle + 1) (some ic) rest
        | some v =>
          if v ≠ b then some (ic, cycle)
          else measureGo b (cycle + 1) (some ic) rest := rfl

/-- If no sample of the window satisfies the issue condition, the loop ends
with `issue_cycle = None` and the measurement fails. -/
theorem measureGo_none_of_no_issue (b : Nat) (l : List MSample) :
    ∀ c : Nat, (∀ s ∈ l, ¬(s.fetched = some ADDI_X1_X0_5 ∧ s.stb = true)) →
      measureGo b c none l = none := by
  induction l with
  | nil => intro c _; rfl
  | cons s rest ih =>
    intro c h
    have hs : issueUpd none c s.fetched s.stb = none := by
      simp only [issueUpd, if_neg (h s (List.mem_cons_self s rest))]
    rw [measureGo_cons]
    simp only [hs]
    exact ih (c + 1) (fun x hx => h x (List.mem_cons_of_mem s hx))

/-- If every resolved register sample of the window still equals the
baseline, the loop never breaks and the measurement fails. -/
theorem measureGo_none_of_reg_baseline (b : Nat) (l : List MSample) :
    ∀ (c : Nat) (iss : Option Nat),
      (∀ s ∈ l, ∀ v, s.reg = some v → v = b) →
      measureGo b c iss l = none := by
  induction l with
  | nil => intro c iss _; rfl
  | cons s rest ih =>
    intro c iss h
    have htail : ∀ x ∈ rest, ∀ v, x.reg = some v → v = b :=
      fun x hx => h x (List.mem_cons_of_mem s hx)
    rw [measureGo_cons]
    cases hu : issueUpd iss c s.fetched s.stb with
    | none => exact ih (c + 1) none htail
    | some ic =>
      cases hr : s.reg with
      | none => exact ih (c + 1) (some ic) htail
      | some v =>
        have hv : v = b := h s (List.mem_cons_self s rest) v hr
        simp only [if_neg (by simp [hv] : ¬v ≠ b)]
        exact ih (c + 1) (some ic) htail

/-- The break of the measurement loop always happens at or after the cycle
recorded as the issue cycle. -/
theorem measureGo_issue_le_write (b : Nat) (l : List MSample) :
    ∀ (c : Nat) (iss : Option Nat) (ic wc : Nat),
      (∀ i, iss = some i → i ≤ c) →
      measureGo b c iss l = some (ic, wc) → ic ≤ wc := by
  induction l with
  | nil => intro c iss ic wc _ h; exact absurd h (by simp [measureGo])
  | cons s rest ih =>
    intro c iss ic wc hinv h
    rw [measureGo_cons] at h
    have hinv' : ∀ i, issueUpd iss c s.fetched s.stb = some i → i ≤ c := by
      intro i hi
      cases hiss : iss with
      | some j =>
        rw [hiss] at hi
        simp only [issueUpd, Option.some.injEq] at hi
        exact hi ▸ hinv j hiss
      | none =>
        rw [hiss] at hi
        simp only [issueUpd] at hi
        by_cases hc : s.fetched = some ADDI_X1_X0_5 ∧ s.stb = true
        · rw [if_pos hc] at hi
          exact (Option.some.inj hi) ▸ Nat.le_refl c
        · rw [if_neg hc] at hi
          exact absurd hi (by simp)
    cases hu : issueUpd iss c s.fetched s.stb with
    | none =>
      simp only [hu] at h
      exact ih (c + 1) none ic wc (fun i hi => absurd hi (by simp)) h
    | some j =>
      have hj : j ≤ c := hinv' j hu
      simp only [hu] at h
      cases hr : s.reg with
      | none =>
        simp only [hr] at h
        exact ih (c + 1) (some j) ic wc
          (fun i hi => (Option.some.inj hi) ▸ Nat.le_succ_of_le hj) h
      | some v =>
        simp only [hr] at h
        by_cases hv : v = b
        · rw [if_neg (by simp [hv] : ¬v ≠ b)] at h
          exact ih (c + 1) (some j) ic wc
            (fun i hi => (Option.some.inj hi) ▸ Nat.le_succ_of_le hj) h
        · rw [if_pos hv] at h
          simp only [Option.some.injEq, Prod.mk.injEq] at h
          obtain ⟨rfl, rfl⟩ := h
          exact hj

/-- The candidate condition, characterized. -/
theorem pipelinedCandidate_iff (cs : List Nat) :
    pipelinedCandidate cs = true ↔
      cs.filter (fun d => 0 < d) ≠ [] ∧ ∀ d ∈ cs.filter (fun d => 0 < d), d = 1 := by
  unfold pipelinedCandidate
  rw [Bool.and_eq_true, Bool.not_eq_true', List.all_eq_true]
  constructor
  · rintro ⟨h1, h2⟩
    refine ⟨fun hnil => ?_, fun d hd => beq_iff_eq.mp (h2 d hd)⟩
    rw [hnil] at h1
    simp at h1
  · rintro ⟨h1, h2⟩
    refine ⟨?_, fun d hd => beq_iff_eq.mpr (h2 d hd)⟩
    cases hF : List.filter (fun d => decide (0 < d)) cs with
    | nil => exact absurd hF h1
    | cons a l => rfl

/-- Layout projection. -/
theorem mkLayout_start_addr (s : Nat) : (mkLayout s).start_addr = s := rfl

/-- Layout projection. -/
theorem mkLayout_loop_start (s : Nat) : (mkLayout s).loop_start = s + 8 := rfl

/-- Layout projection. -/
theorem mkLayout_branch_addr (s : Nat) : (mkLayout s).branch_addr = s + 32 := rfl

/-- Layout projection. -/
theorem mkLayout_finish_addr (s : Nat) : (mkLayout s).finish_addr = s + 36 := rfl

/-- Looking a key up right after setting it returns the stored value. -/
theorem assocSet_lookup {α : Type} (st : List (String × α)) (k : String) (v : α) :
    (assocSet st k v).lookup k = some v := by
  induction st with
  | nil => simp [assocSet, List.lookup]
  | cons p rest ih =>
    obtain ⟨k', v'⟩ := p
    by_cases hk : k' = k
    · subst hk
      simp [assocSet, List.lookup]
    · have hbe : (k == k') = false :=
        beq_eq_false_iff_ne.mpr (fun h => hk h.symm)
      simp only [assocSet, if_neg hk, List.lookup, hbe]
      exact ih

end TestCycle

namespace TestCycle

/-- Claim C1: the classifier first discards zero-length inter-change
intervals; if the filtered list is non-empty and every interval equals 1 it
takes the pipelined-candidate branch (whose record is determined by the
latency measurement), and in every other case it records the Multicycle
verdict, independently of any latency value (no measurement is attempted).
In particular `[1,1,1,1]` is a pipelined candidate and `[1,3,1]` is
Multicycle. -/
theorem C1_classifier_interval_policy (cs : List Nat) (lat lat' : Option Int) :
    pipelinedCandidate [1, 1, 1, 1] = true ∧
    pipelinedCandidate [1, 3, 1] = false ∧
    (pipelinedCandidate cs = true ↔
      cs.filter (fun d => 0 < d) ≠ [] ∧ ∀ d ∈ cs.filter (fun d => 0 < d), d = 1) ∧
    (pipelinedCandidate cs = true → classifyTrace cs lat = classifyLatency lat) ∧
    (pipelinedCandidate cs = false →
      classifyTrace cs lat = multiRec ∧ classifyTrace cs lat = classifyTrace cs lat') := by
  refine ⟨by decide, by decide, pipelinedCandidate_iff cs, fun h => ?_, fun h => ?_⟩
  · simp [classifyTrace, h]
  · simp [classifyTrace, h]

/-- Witness for claim C1 at the concrete interval lists of the spec. -/
theorem C1_witness_concrete :
    pipelinedCandidate [1, 1, 1, 1] = true ∧ classifyTrace [1, 3, 1] none = multiRec :=
  ⟨(C1_classifier_interval_policy [1, 3, 1] none none).1,
   ((C1_classifier_interval_policy [1, 3, 1] none none).2.2.2.2 (by decide)).1⟩

/-- Claim C2, counterexample: the driver does not abort on an out-of-range
jump immediate.  `encode_jal` does raise, but the except-handler of
test_cycle.py lines 106-110 swallows the error and substitutes the NOP word
for the jump, so the word used at `branch_addr` is not a successful JAL
encoding — shown concretely at immediate `2 ^ 20`. -/
theorem C2_counterexample_no_abort :
    ¬ neverSubstitutes ∧ jalBackOf (2 ^ 20) = NOP ∧
    encode_jal (2 ^ 20) 0 =
      Except.error "JAL immediate 1048576 out of range for 21-bit signed J-format" := by
  refine ⟨fun h => ?_, by decide, rfl⟩
  obtain ⟨w, hw, _⟩ := h (2 ^ 20)
  rw [show encode_jal (2 ^ 20) 0 =
      Except.error "JAL immediate 1048576 out of range for 21-bit signed J-format"
    from rfl] at hw
  exact Except.noConfusion hw

/-- Claim C2 as amended: an out-of-range jump-back immediate makes
`encode_jal` report the offending value, but the driver catches the error and
substitutes NOP at `branch_addr` instead of aborting; for the layouts the
driver actually derives the immediate is always -24, in range, and the
correct JAL word `0xFE9FF06F` (jal x0, -24) is used. -/
theorem C2_amended_catch_and_substitute (imm : Int)
    (h : imm < -(2 ^ 20) ∨ (2 ^ 20 : Int) ≤ imm) :
    encode_jal imm 0 =
      Except.error s!"JAL immediate {imm} out of range for 21-bit signed J-format" ∧
    jalBackOf imm = NOP ∧
    ∀ start : Nat, (mkLayout start).jal_back = 0xFE9FF06F := by
  have hc : ¬(-(2 ^ 20) ≤ imm ∧ imm < 2 ^ 20) := by omega
  have he : encode_jal imm 0 =
      Except.error s!"JAL immediate {imm} out of range for 21-bit signed J-format" := by
    simp only [encode_jal, if_neg hc]
  refine ⟨he, ?_, ?_⟩
  · simp only [jalBackOf, he]
  · intro start
    have himm : ((start + 8 : Nat) : Int) - ((start + 32 : Nat) : Int) = -24 := by
      push_cast; ring
    simp only [mkLayout, himm]
    decide

/-- Witness for the amended claim C2 at immediate `2 ^ 20`. -/
theorem C2_amended_witness :
    jalBackOf (2 ^ 20) = NOP ∧ (mkLayout 0x100).jal_back = 0xFE9FF06F :=
  ⟨(C2_amended_catch_and_substitute (2 ^ 20) (Or.inr (by norm_num))).2.1,
   (C2_amended_catch_and_substitute (2 ^ 20) (Or.inr (by norm_num))).2.2 0x100⟩

/-- Claim C3: when the measurement loop observes both an issue and a write
cycle, the returned depth is `write_cycle - issue_cycle + 1`; depth 1 yields
the SingleCycle record and depth greater than 1 the Pipelined record with
that depth.  `issue=10, write=10` gives 1 and `issue=10, write=14` gives 5. -/
theorem C3_depth_formula_and_verdicts (baseRaw : Option Nat) (trace : List MSample)
    (ic wc : Nat) (l : Int)
    (hgo : measureGo (baselineOf baseRaw) 0 none (trace.take max_cycles) = some (ic, wc)) :
    measure_pipeline_depth baseRaw trace = some (latencyOf ic wc) ∧
    latencyOf 10 10 = 1 ∧ latencyOf 10 14 = 5 ∧
    (l = 1 → classifyLatency (some l) = singleRec) ∧
    (l > 1 → classifyLatency (some l) = pipeRec l) ∧
    classifyLatency (some 1) = singleRec ∧ classifyLatency (some 5) = pipeRec 5 := by
  refine ⟨?_, by decide, by decide, fun h1 => ?_, fun h1 => ?_, by decide, by decide⟩
  · simp only [measure_pipeline_depth, hgo]
  · subst h1; decide
  · simp only [classifyLatency, latencyCaseOf, if_neg (by omega : ¬l = 1), if_pos h1]

/-- Witness for claim C3 at a one-sample trace whose issue and write cycle
are both cycle 0. -/
theorem C3_witness_concrete :
    measure_pipeline_depth (some 0) [⟨some ADDI_X1_X0_5, true, some 5⟩] =
      some (latencyOf 0 0) ∧
    classifyLatency (some 5) = pipeRec 5 :=
  ⟨(C3_depth_formula_and_verdicts (some 0) [⟨some ADDI_X1_X0_5, true, some 5⟩] 0 0 5
      (by decide)).1,
   (C3_depth_formula_and_verdicts (some 0) [⟨some ADDI_X1_X0_5, true, some 5⟩] 0 0 5
      (by decide)).2.2.2.2.1 (by norm_num)⟩

/-- Claim C5: the layout derived from the first fetch address has
`loop_start = start + 8`, `branch_addr = start + 32`, `finish_addr =
start + 36`, the two distinguishable instructions at the first two addresses,
and NOP filler between `loop_start` and `branch_addr`. -/
theorem C5_layout_fixed_offsets (start loops_done required_loops : Nat) :
    (mkLayout start).loop_start = start + 8 ∧
    (mkLayout start).branch_addr = start + 32 ∧
    (mkLayout start).finish_addr = start + 36 ∧
    instrAt (mkLayout start) loops_done required_loops start = INSTR_A ∧
    instrAt (mkLayout start) loops_done required_loops (start + 4) = INSTR_B ∧
    (∀ k ∈ [8, 12, 16, 20, 24, 28],
      instrAt (mkLayout start) loops_done required_loops (start + k) = NOP) ∧
    INSTR_A ≠ INSTR_B := by
  refine ⟨rfl, rfl, rfl, ?_, ?_, ?_, by decide⟩
  · simp only [instrAt, mkLayout_start_addr, mkLayout_branch_addr, mkLayout_finish_addr]
    split_ifs <;> first | rfl | omega
  · simp only [instrAt, mkLayout_start_addr, mkLayout_branch_addr, mkLayout_finish_addr]
    split_ifs <;> first | rfl | omega
  · intro k hk
    simp only [instrAt, mkLayout_start_addr, mkLayout_branch_addr, mkLayout_finish_addr]
    fin_cases hk <;> (split_ifs <;> first | rfl | omega)

/-- Witness for claim C5 at `start = 0x100`. -/
theorem C5_witness_concrete :
    instrAt (mkLayout 0x100) 0 25 (0x100 + 8) = NOP ∧
    (mkLayout 0x100).loop_start = 0x100 + 8 :=
  ⟨(C5_layout_fixed_offsets 0x100 0 25).2.2.2.2.2.1 8 (by decide),
   (C5_layout_fixed_offsets 0x100 0 25).1⟩

/-- Claim C6: an unresolved PC sample leaves the observer state untouched
(never recorded as a transition), the first resolved sample only establishes
the baseline (no interval is recorded), and the trace
resolved/unresolved/resolved-same-value yields zero recorded intervals. -/
theorem C6_unresolved_pc_skipped :
    (∀ (s : ObsState) (cycle : Nat), obsStep s cycle none = s) ∧
    (∀ (s : ObsState) (cycle pc : Nat), s.first_pc_seen = none →
      (obsStep s cycle (some pc)).change_cycles = s.change_cycles) ∧
    (∀ v : Nat, observePC [some v, none, some v] = []) := by
  refine ⟨fun s cycle => rfl, fun s cycle pc h => ?_, fun v => ?_⟩
  · simp only [obsStep, h]
  · simp [observePC, observeGo, obsStep, obsInit, List.take]

/-- Witness for claim C6 at concrete observer inputs. -/
theorem C6_witness_concrete :
    (obsStep obsInit 0 (some 5)).change_cycles = obsInit.change_cycles ∧
    observePC [some 3, none, some 3] = [] :=
  ⟨C6_unresolved_pc_skipped.2.1 obsInit 0 5 rfl, C6_unresolved_pc_skipped.2.2 3⟩

/-- Claim C7, counterexample: the baseline read of test_cycle.py line 152 IS
coerced to the concrete value 0 when the register is unresolved
(`... if ... .is_resolvable else 0`), and the measurement then proceeds with
baseline 0: on a trace whose register reads 1 the very first cycle counts as
the write cycle. -/
theorem C7_counterexample_baseline_zero :
    baselineOf none = 0 ∧
    measure_pipeline_depth none [⟨some ADDI_X1_X0_5, true, some 1⟩] = some 1 :=
  ⟨rfl, by decide⟩

/-- Claim C7 as amended: unresolved register samples inside the measurement
loop are indeed skipped (they never become the write cycle), but the baseline
register read taken at the start of latency measurement is coerced to the
concrete value 0 when unresolved, so measurement with an unresolved baseline
behaves exactly as if the baseline had read 0. -/
theorem C7_amended_baseline_coercion (trace : List MSample) (b c : Nat)
    (iss : Option Nat) (f : Option Nat) (st : Bool) (rest : List MSample) :
    baselineOf none = 0 ∧
    measure_pipeline_depth none trace = measure_pipeline_depth (some 0) trace ∧
    measureGo b c iss ({ fetched := f, stb := st, reg := none } :: rest) =
      measureGo b (c + 1) (issueUpd iss c f st) rest := by
  refine ⟨rfl, rfl, ?_⟩
  rw [measureGo_cons]
  cases hu : issueUpd iss c f st <;> rfl

/-- Claim C8: if the issue condition never holds in the 400-cycle window, or
every resolved register sample still equals the baseline, the measurement
returns `none`; the pipelined-candidate branch then records the
all-false (Undetermined) record, and the store it persists holds that record
under the processor name. -/
theorem C8_timeout_gives_undetermined (baseRaw : Option Nat) (trace : List MSample)
    (store : List (String × LabelRec)) (name : String) (cs : List Nat)
    (h : (∀ s ∈ trace.take max_cycles, ¬(s.fetched = some ADDI_X1_X0_5 ∧ s.stb = true)) ∨
         (∀ s ∈ trace.take max_cycles, ∀ v, s.reg = some v → v = baselineOf baseRaw))
    (hcand : pipelinedCandidate cs = true) :
    measure_pipeline_depth baseRaw trace = none ∧
    runVerdict store name cs (measure_pipeline_depth baseRaw trace) =
      assocSet store name undetRec ∧
    (assocSet store name undetRec).lookup name = some undetRec := by
  have hnone : measure_pipeline_depth baseRaw trace = none := by
    rcases h with h | h
    · simp only [measure_pipeline_depth,
        measureGo_none_of_no_issue (baselineOf baseRaw) (trace.take max_cycles) 0 h]
    · simp only [measure_pipeline_depth,
        measureGo_none_of_reg_baseline (baselineOf baseRaw) (trace.take max_cycles) 0 none h]
  refine ⟨hnone, ?_, assocSet_lookup store name undetRec⟩
  simp only [runVerdict, hnone, classifyTrace, if_pos hcand, classifyLatency]

/-- Witness for claim C8 at a trace where the issue cycle is never seen. -/
theorem C8_witness_concrete :
    measure_pipeline_depth (some 0) [⟨none, false, some 0⟩] = none ∧
    runVerdict [] "proc" [1, 1] (measure_pipeline_depth (some 0) [⟨none, false, some 0⟩]) =
      assocSet [] "proc" undetRec :=
  ⟨(C8_timeout_gives_undetermined (some 0) [⟨none, false, some 0⟩] [] "proc" [1, 1]
      (Or.inl (by decide)) (by decide)).1,
   (C8_timeout_gives_undetermined (some 0) [⟨none, false, some 0⟩] [] "proc" [1, 1]
      (Or.inl (by decide)) (by decide)).2.1⟩

/-- Claim C10: whenever the measurement returns a latency, it is at least 1
(the break can only happen at or after the recorded issue cycle), so the
dispatch on the latency always takes the SingleCycle or Pipelined branch and
the defensive "Unexpected latency value" branch is unreachable. -/
theorem C10_measured_latency_ge_one (baseRaw : Option Nat) (trace : List MSample)
    (l : Int) (h : measure_pipeline_depth baseRaw trace = some l) :
    1 ≤ l ∧
    (latencyCaseOf l = LatencyCase.single ∨ latencyCaseOf l = LatencyCase.pipelined l) ∧
    (∀ d : Int, latencyCaseOf l ≠ LatencyCase.unexpected d) := by
  obtain ⟨ic, wc, hgo, rfl⟩ :
      ∃ ic wc, measureGo (baselineOf baseRaw) 0 none (trace.take max_cycles) =
        some (ic, wc) ∧ l = latencyOf ic wc := by
    unfold measure_pipeline_depth at h
    cases hgo : measureGo (baselineOf baseRaw) 0 none (trace.take max_cycles) with
    | none => rw [hgo] at h; exact absurd h (by simp)
    | some p =>
      obtain ⟨ic, wc⟩ := p
      rw [hgo] at h
      have h' : some (latencyOf ic wc) = some l := h
      exact ⟨ic, wc, rfl, (Option.some.inj h').symm⟩
  have hle : ic ≤ wc :=
    measureGo_issue_le_write (baselineOf baseRaw) (trace.take max_cycles) 0 none ic wc
      (fun i hi => absurd hi (by simp)) hgo
  have h1 : 1 ≤ latencyOf ic wc := by
    unfold latencyOf; omega
  refine ⟨h1, ?_, ?_⟩
  · by_cases he : latencyOf ic wc = 1
    · exact Or.inl (by simp [latencyCaseOf, he])
    · exact Or.inr (by simp [latencyCaseOf, if_neg he, if_pos (by omega : latencyOf ic wc > 1)])
  · intro d hd
    unfold latencyCaseOf at hd
    by_cases he : latencyOf ic wc = 1
    · rw [if_pos he] at hd; exact LatencyCase.noConfusion hd
    · rw [if_neg he, if_pos (by omega : latencyOf ic wc > 1)] at hd
      exact LatencyCase.noConfusion hd

/-- Witness for claim C10 at a trace measured with latency 1. -/
theorem C10_witness_concrete :
    (1 : Int) ≤ 1 ∧ latencyCaseOf 1 = LatencyCase.single :=
  ⟨(C10_measured_latency_ge_one (some 0) [⟨some ADDI_X1_X0_5, true, some 7⟩] 1
      (by decide)).1,
   by
    rcases (C10_measured_latency_ge_one (some 0) [⟨some ADDI_X1_X0_5, true, some 7⟩] 1
      (by decide)).2.1 with h | h
    · exact h
    · exact absurd h (by decide)⟩

end TestCycle

namespace Cycle

/-- Claim C4, counterexample: it is not true that the responder keeps
acknowledge low on every asserted-fetch edge whose address is unresolved.
The `continue` of cycle.py line 26 leaves the previously driven outputs in
place, so after serving address 0x80 the acknowledge is still asserted on a
following edge whose address is unresolved. -/
theorem C4_counterexample_stale_ack :
    ¬ ackLowOnUnresolved ∧
    (drvRun [⟨true, true, false, some 0x80⟩, ⟨true, true, false, none⟩]).core_ack = true := by
  constructor
  · intro h
    have hc := h [⟨true, true, false, some 0x80⟩] ⟨true, true, false, none⟩ rfl rfl rfl rfl
    exact absurd hc (by decide)
  · decide

/-- Claim C4 as amended: on an edge with a fetch asserted at a resolved
address the responder drives the mapped word (NOP for unmapped addresses) and
asserts acknowledge; on an edge with no fetch asserted it deasserts
acknowledge; on an edge with a fetch asserted at an unresolved address it
leaves both outputs unchanged — so a previously asserted acknowledge remains
asserted through such a cycle rather than being deasserted. -/
theorem C4_amended_responder_step (out : DrvOut) (i : BusIn) :
    (∀ a, i.cyc = true → i.stb = true → i.we = false → i.addr = some a →
      drvStep out i = { core_data_in := progGet a, core_ack := true }) ∧
    (¬(i.cyc = true ∧ i.stb = true ∧ i.we = false) →
      (drvStep out i).core_ack = false ∧
      (drvStep out i).core_data_in = out.core_data_in) ∧
    (i.cyc = true → i.stb = true → i.we = false → i.addr = none → drvStep out i = out) ∧
    progGet 0x00000080 = 0x00500093 ∧ progGet 0x00000090 = 0x00000013 := by
  refine ⟨?_, ?_, ?_, by decide, by decide⟩
  · intro a h1 h2 h3 h4
    simp only [drvStep, h4]
    rw [if_pos (show i.cyc = true ∧ i.stb = true ∧ i.we = false from ⟨h1, h2, h3⟩)]
  · intro h
    simp [drvStep, if_neg h]
  · intro h1 h2 h3 h4
    simp only [drvStep, h4]
    rw [if_pos (show i.cyc = true ∧ i.stb = true ∧ i.we = false from ⟨h1, h2, h3⟩)]

/-- Witness for the amended claim C4 at concrete bus inputs. -/
theorem C4_amended_witness :
    drvStep drvInit ⟨true, true, false, some 0x80⟩ =
      { core_data_in := progGet 0x80, core_ack := true } ∧
    drvStep { core_data_in := 5, core_ack := true } ⟨true, true, false, none⟩ =
      { core_data_in := 5, core_ack := true } :=
  ⟨(C4_amended_responder_step drvInit ⟨true, true, false, some 0x80⟩).1 0x80 rfl rfl rfl rfl,
   (C4_amended_responder_step { core_data_in := 5, core_ack := true }
      ⟨true, true, false, none⟩).2.2.1 rfl rfl rfl rfl⟩

end Cycle

namespace CocotbLabeler

/-- Claim C9 (code bug): after a missing or corrupt prior store is read back
as the empty dict, the write
`existing_data[processor_name]["bits"] = bits` raises `KeyError` because the
processor's key is absent — the merge does not complete, for an empty store,
a store created fresh from a missing file, and a store holding only other
processors alike. -/
theorem C9_keyerror_on_empty_store :
    processor_test_persist none "procA" 32 = Except.error "KeyError" ∧
    processor_test_persist (some []) "procA" 32 = Except.error "KeyError" ∧
    processor_test_persist
        (some [("other", ⟨false, none, false, none⟩)]) "procA" 32 =
      Except.error "KeyError" := by
  refine ⟨rfl, rfl, ?_⟩
  simp only [processor_test_persist, readPrior, setBits]
  rfl

end CocotbLabeler
